import Mathlib

/-!
Verification of the synchronization orchestration engine of `scripts/sync.py`
(class `Sync`): host resolution, sync-task construction, transfer-output
classification and per-host result aggregation, shallowly embedded in Lean.

Strings are modelled by Lean `String`; the Python substring test `a in b`,
`str.startswith`, `str.endswith`, `str.replace`, `str.split('\n')` and
`str.strip()` are re-implemented structurally over the underlying character
lists so that everything evaluates by kernel reduction.
-/

namespace SyncPy

/-- Python `needle in haystack` on character lists: `needle` occurs as a
contiguous infix of `haystack`. -/
def listOccurs (needle : List Char) : List Char → Bool
  | [] => needle.isEmpty
  | c :: rest => needle.isPrefixOf (c :: rest) || listOccurs needle rest

/-- Python `needle in haystack` for strings (substring test). -/
def strIn (needle haystack : String) : Bool :=
  listOccurs needle.data haystack.data

/-- Python `s.startswith(pat)`. -/
def strStartsWith (s pat : String) : Bool :=
  pat.data.isPrefixOf s.data

/-- Python `s.endswith(pat)`. -/
def strEndsWith (s pat : String) : Bool :=
  pat.data.isSuffixOf s.data

/-- Python `c in s` for a single character. -/
def strHasChar (s : String) (c : Char) : Bool :=
  s.data.contains c

/-- Python `s.split('\n')` on character lists (splitting on a single
newline character, as in `_get_log_info`). -/
def splitLines : List Char → List (List Char)
  | [] => [[]]
  | c :: rest =>
    if c = '\n' then [] :: splitLines rest
    else
      match splitLines rest with
      | [] => [[c]]
      | l :: ls => (c :: l) :: ls

/-- Python `s.split('\n')` for strings. -/
def strSplitLines (s : String) : List String :=
  (splitLines s.data).map (fun l => ⟨l⟩)

/-- Replace every occurrence of `pat` by `rep`, fuelled by the length of the
remaining input (one unit of fuel is spent per step, and every step consumes
at least one character, so `s.length` fuel always suffices). -/
def replFuel (pat rep : List Char) : Nat → List Char → List Char
  | _, [] => []
  | 0, s => s
  | fuel+1, c :: rest =>
    if pat.isPrefixOf (c :: rest) then
      rep ++ replFuel pat rep fuel (rest.drop (pat.length - 1))
    else
      c :: replFuel pat rep fuel rest

/-- Python `s.replace(pat, rep)` (all occurrences). -/
def strReplace (s pat rep : String) : String :=
  ⟨replFuel pat.data rep.data s.data.length s.data⟩

/-- Replace only the first occurrence of `pat` by `rep` on character lists. -/
def replFirstList (pat rep : List Char) : List Char → List Char
  | [] => []
  | c :: rest =>
    if pat.isPrefixOf (c :: rest) then rep ++ (c :: rest).drop pat.length
    else c :: replFirstList pat rep rest

/-- Python `s.replace(pat, rep, 1)` (first occurrence only). -/
def strReplaceFirst (s pat rep : String) : String :=
  ⟨replFirstList pat.data rep.data s.data⟩

/-- Python `s.strip()`: remove leading and trailing whitespace. -/
def strStrip (s : String) : String :=
  ⟨((s.data.dropWhile Char.isWhitespace).reverse.dropWhile
      Char.isWhitespace).reverse⟩

/-- A synchronization direction (`'up'` or `'down'`). -/
inductive Direction where
  | up
  | down
deriving DecidableEq

/-- The parsed configuration file: top-level keys (hostnames or `ALIASES`)
mapped to element-name/relative-path tables, in insertion order (Python dicts
preserve insertion order). -/
abbrev Config := List (String × List (String × String))

/-- The reserved per-host base-path key `Sync._PATH`. -/
def _PATH : String := "_PATH"

/-- The reserved alias-table key `Sync._ALIASES`. -/
def _ALIASES : String := "ALIASES"

/-- The base transfer command `Sync._SYNC_COMMAND`. -/
def _SYNC_COMMAND : String := "rsync -auP"

/-- The default exclude fragment `Sync._DEFAULT_EXCLUDE`. -/
def _DEFAULT_EXCLUDE : String := "--exclude=\"*.swp\" "

/-- The element table of one host (`self.config[host]`), defaulting to the
empty table when the host key is absent. -/
def lookupHost (config : Config) (host : String) : List (String × String) :=
  (config.lookup host).getD []

/-- One transfer result as returned by `_get_one_sync_task`:
`(src, dest, stdout, stderr)`. -/
structure TransferResult where
  src : String
  dest : String
  stdout : String
  stderr : String
deriving DecidableEq

/-- The connection-error test of `_process_host` (lines 358-361):
`'Connection refused' in stderr or 'Could not resolve hostname' in stderr`. -/
def connection_error (stderr : String) : Bool :=
  strIn "Connection refused" stderr || strIn "Could not resolve hostname" stderr

/-- The result-processing loop of `_process_host` (lines 346-373): iterate
over the gathered results carrying the `successful` flag; a connection error
returns `False` immediately, any other non-empty stderr clears the flag and
processing continues; at the end the flag is returned. -/
def processResults : List TransferResult → Bool → Bool
  | [], successful => successful
  | r :: rs, successful =>
    if connection_error r.stderr then false
    else if r.stderr ≠ "" then processResults rs false
    else processResults rs successful

/-! ## Host resolution (`_get_hosts`, lines 103-158) -/

/-- `all_hosts = [host for host in self.config if host != self._ALIASES]`. -/
def allHostsOf (config : Config) : List String :=
  (config.map Prod.fst).filter (fun h => h != _ALIASES)

/-- The first pass of `_get_hosts` (lines 109-113): one left-to-right loop
over `all_hosts` that overwrites `this_host` on every substring match of the
local network name and appends non-matching hosts to `other_hosts`. -/
def splitHostsFold (fullname : String) (hosts : List String) :
    Option String × List String :=
  hosts.foldl
    (fun acc host =>
      if strIn host fullname then (some host, acc.2)
      else (acc.1, acc.2 ++ [host]))
    (none, [])

/-- The last element of a list satisfying `p`, if any (specification-side
description of what the overwrite loop computes). -/
def lastMatch (p : String → Bool) : List String → Option String
  | [] => none
  | h :: t =>
    match lastMatch p t with
    | some x => some x
    | none => if p h then some h else none

/-- `this_host` as computed by the loop of `_get_hosts`. -/
def thisHostOf (config : Config) (fullname : String) : Option String :=
  (splitHostsFold fullname (allHostsOf config)).1

/-- `other_hosts` as computed by the loop of `_get_hosts`. -/
def otherHostsOf (config : Config) (fullname : String) : List String :=
  (splitHostsFold fullname (allHostsOf config)).2

/-- The token-resolution loop of `_get_hosts` (lines 120-130): for each
requested token take the first configured host that is a substring of the
token and `break`; the `for`-`else` branch logs a warning and drops the
token. -/
def resolveTargets (all_hosts : List String) : List String → List String
  | [] => []
  | tok :: toks =>
    match all_hosts.find? (fun h => strIn h tok) with
    | some h => h :: resolveTargets all_hosts toks
    | none => resolveTargets all_hosts toks

/-- `target_hosts` as computed by `_get_hosts` (lines 116-130): all other
hosts when the sentinel `all` was requested, otherwise the resolved tokens. -/
def targetHostsOf (config : Config) (fullname : String)
    (targets : List String) : List String :=
  if targets.contains "all" then otherHostsOf config fullname
  else resolveTargets (allHostsOf config) targets

/-- The three fatal host-resolution errors of `_get_hosts` (each is a
distinct `logging.error` followed by `exit(1)`). -/
inductive HostError where
  | noLocalHostMatch
  | noTargetHostMatch
  | selfSync
deriving DecidableEq

/-- `_get_hosts` (lines 103-158): compute `this_host` and `target_hosts`,
then run the three validation checks in source order. -/
def _get_hosts (config : Config) (fullname : String)
    (targets : List String) : Except HostError (String × List String) :=
  let target_hosts := targetHostsOf config fullname targets
  match thisHostOf config fullname with
  | none => .error .noLocalHostMatch
  | some this_host =>
    if target_hosts.isEmpty then .error .noTargetHostMatch
    else if target_hosts.contains this_host then .error .selfSync
    else .ok (this_host, target_hosts)

/-! ## Sync command and task construction
(`_get_sync_command` lines 260-276, `_get_one_sync_task` lines 209-248) -/

/-- The exclude fragment built by `_get_sync_command` (lines 262-267):
`args.exclude` is `None` (the `TypeError` branch leaves the default) or a
list of `-e` arguments appended as `--exclude="…" `. -/
def excludeString (exclude : Option (List String)) : String :=
  match exclude with
  | none => _DEFAULT_EXCLUDE
  | some excs =>
    excs.foldl (fun acc exc => acc ++ "--exclude=\"" ++ exc ++ "\" ")
      _DEFAULT_EXCLUDE

/-- `_get_sync_command` (lines 260-276): base command plus stripped exclude
fragment, then ` -n` when dry-run, then ` --delete` when deleting. -/
def _get_sync_command (exclude : Option (List String))
    (dry_run delete : Bool) : String :=
  let sync_command := _SYNC_COMMAND ++ " " ++ strStrip (excludeString exclude)
  let sync_command := if dry_run then sync_command ++ " -n" else sync_command
  if delete then sync_command ++ " --delete" else sync_command

/-- One synchronization task: the element it serves and the
`(src, dest, command)` triple built by `_get_one_sync_task` before the
subprocess is launched. -/
structure SyncTask where
  element : String
  src : String
  dest : String
  command : String
deriving DecidableEq

/-- The remote base path of `_get_one_sync_task` (lines 213-219): the
expanded `_PATH` override when present, else the literal `<target_host>:./`.
`expand` stands for `Sync._expanduser` (filesystem-dependent). -/
def targetBasePath (expand : String → String) (target_host : String)
    (elems_target : List (String × String)) : String :=
  match elems_target.lookup _PATH with
  | some p => expand p
  | none => target_host ++ ":./"

/-- The pure part of `_get_one_sync_task` (lines 209-237): build the source,
destination and command string for one element and direction. A missing
configuration key (Python `KeyError`) yields `none`. -/
def _get_one_sync_task (expand : String → String) (sync_command : String)
    (config : Config) (this_host element : String) (direction : Direction)
    (target_host : String) : Option SyncTask := do
  let elems_target ← config.lookup target_host
  let elems_this ← config.lookup this_host
  let target_host_path := targetBasePath expand target_host elems_target
  let path_this ← elems_this.lookup element
  let path_target ← elems_target.lookup element
  let this_element := expand ("~/" ++ path_this)
  let target_element := target_host_path ++ path_target
  let (src, dest) :=
    match direction with
    | .up => (this_element, target_element)
    | .down => (target_element, this_element)
  some ⟨element, src, dest, sync_command ++ " " ++ src ++ " " ++ dest⟩

/-! ## Transfer output classification (`_get_log_info`, lines 160-207) -/

/-- The `not_relevant` test of `_get_log_info` (lines 165-171): progress
noise (carriage return), empty line, bare `./`, or an rsync summary line. -/
def not_relevant (info : String) : Bool :=
  strHasChar info '\r' || (info == "") || (info == "./") ||
    strStartsWith info "sent " || strStartsWith info "total size is"

/-- The per-line classification of `_get_log_info` (lines 164-205): drop
irrelevant lines, else emit exactly one message for a created directory, a
deletion, or a moved file. -/
def classifyLine (dry_run : Bool) (src dest : String) (info : String) :
    Option String :=
  if not_relevant info then none
  else if strIn "created directory" info then
    let info :=
      if dry_run then
        strReplace info "created directory " "Would create directory '" ++ "'"
      else
        strReplace info "created directory " "Created directory '" ++ "'"
    some ("    " ++ info)
  else if strStartsWith info "deleting" then
    let info := strReplaceFirst info "deleting " ""
    let d_str := if strEndsWith dest "/" then dest ++ info else dest
    let prefix_str := if dry_run then "    Would delete " else "    Deleted "
    some (prefix_str ++ "'" ++ d_str ++ "'")
  else
    let s_str := if strEndsWith src "/" then src ++ info else src
    let d_str := if strEndsWith dest "/" then dest ++ info else dest
    let prefix_str :=
      if dry_run then "    Would move " else "    Successfully moved "
    some (prefix_str ++ "'" ++ s_str ++ "' to '" ++ d_str ++ "'")

/-- `_get_log_info` on an already-split line list: skip the first line, map
the rest through `classifyLine`, and apply the `list(set(...))`
deduplication. -/
def logInfoOfLines (dry_run : Bool) (src dest : String)
    (lines : List String) : List String :=
  ((lines.drop 1).filterMap (classifyLine dry_run src dest)).dedup

/-- `_get_log_info` (lines 160-207). -/
def _get_log_info (dry_run : Bool) (stdout src dest : String) : List String :=
  logInfoOfLines dry_run src dest (strSplitLines stdout)

/-! ## Task iteration of `_process_host` (lines 312-343) -/

/-- The task-building part of `_process_host` (lines 316-341): `none` when
the two hosts share no element names (the informational "no shared elements"
branch, which returns `True` with no work), otherwise the tasks created for
every shared element except the reserved key `_PATH`, in the iteration order
of this host's elements. -/
def processHostTasks (expand : String → String) (sync_command : String)
    (config : Config) (this_host target_host : String)
    (direction : Direction) : Option (List SyncTask) :=
  let elements_this := (lookupHost config this_host).map Prod.fst
  let elements_target := (lookupHost config target_host).map Prod.fst
  if elements_this.all (fun e => !(elements_target.contains e)) then none
  else
    some (elements_this.filterMap (fun element =>
      if element == _PATH then none
      else if elements_target.contains element then
        _get_one_sync_task expand sync_command config this_host element
          direction target_host
      else none))

/-- `_process_host` (lines 312-373) given the gathered transfer results:
`True` on the no-shared-elements branch, otherwise the verdict of the
result-processing loop. -/
def _process_host (expand : String → String) (sync_command : String)
    (config : Config) (this_host target_host : String)
    (direction : Direction) (results : List TransferResult) : Bool :=
  match processHostTasks expand sync_command config this_host target_host
      direction with
  | none => true
  | some _ => processResults results true

/-! ## Direction selection and per-host outcome (`_run_sync`, lines 424-467) -/

/-- The direction-selection policy of `_run_sync` (lines 426-431): both
directions when the `--up` and `--down` flags agree (both absent or both
present), otherwise exactly the requested ones. -/
def performFlags (args_up args_down : Bool) : Bool × Bool :=
  if args_up == args_down then (true, true) else (args_up, args_down)

/-- The per-host phase execution of `_run_sync` (lines 447-467):
`success_up`/`success_down` start at `True` and are overwritten only when
the corresponding phase is performed; the host's outcome is their
conjunction. `run d` stands for `asyncio.run(self._process_host(host, d))`. -/
def hostOutcome (args_up args_down : Bool) (run : Direction → Bool) : Bool :=
  let flags := performFlags args_up args_down
  let success_up := if flags.1 then run .up else true
  let success_down := if flags.2 then run .down else true
  success_up && success_down

/-! ## Helper lemmas -/

/-- Once the `successful` flag is cleared, the result loop can only return
`False`. -/
theorem processResults_false (results : List TransferResult) :
    processResults results false = false := by
  induction results with
  | nil => rfl
  | cons r rs ih =>
    by_cases hc : connection_error r.stderr
    · simp [processResults, hc]
    · by_cases hs : r.stderr = "" <;> simp [processResults, hc, hs, ih]

/-- An empty stderr never triggers the connection-error test. -/
theorem connection_error_empty : connection_error "" = false := rfl

/-- The first component of the host-splitting loop is the last host matching
the local network name. -/
theorem splitHostsFold_fst_aux (fullname : String) (hosts : List String) :
    ∀ (a : Option String) (b : List String),
      (hosts.foldl
        (fun acc host =>
          if strIn host fullname then (some host, acc.2)
          else (acc.1, acc.2 ++ [host]))
        (a, b)).1
      = match lastMatch (fun h => strIn h fullname) hosts with
        | some x => some x
        | none => a := by
  induction hosts with
  | nil => intro a b; rfl
  | cons h t ih =>
    intro a b
    by_cases hh : strIn h fullname
    · simp only [List.foldl_cons, hh, if_pos, ih]
      cases hlm : lastMatch (fun x => strIn x fullname) t <;>
        simp [lastMatch, hlm, hh]
    · simp only [List.foldl_cons, hh, if_neg, Bool.false_eq_true,
        not_false_eq_true, ih]
      cases hlm : lastMatch (fun x => strIn x fullname) t <;>
        simp [lastMatch, hlm, hh]

/-- `this_host` as computed by `_get_hosts` is the last configured host that
is a substring of the local network name. -/
theorem thisHostOf_eq_lastMatch (config : Config) (fullname : String) :
    thisHostOf config fullname
      = lastMatch (fun h => strIn h fullname) (allHostsOf config) := by
  unfold thisHostOf splitHostsFold
  rw [splitHostsFold_fst_aux]
  cases lastMatch (fun h => strIn h fullname) (allHostsOf config) <;> rfl

/-- The token-resolution loop keeps, for each token, the first configured
host that is a substring of the token, and drops unmatched tokens. -/
theorem resolveTargets_eq_filterMap (all_hosts : List String)
    (targets : List String) :
    resolveTargets all_hosts targets
      = targets.filterMap (fun tok => all_hosts.find? (fun h => strIn h tok)) := by
  induction targets with
  | nil => rfl
  | cons tok toks ih =>
    cases hf : all_hosts.find? (fun h => strIn h tok) <;>
      simp [resolveTargets, hf, ih]

/-- A key occurring in an association list has a successful lookup. -/
theorem lookup_of_mem_keys {l : List (String × String)} {a : String}
    (h : a ∈ l.map Prod.fst) : ∃ b, l.lookup a = some b := by
  induction l with
  | nil => simp at h
  | cons p t ih =>
    by_cases hak : a = p.1
    · exact ⟨p.2, by simp [List.lookup, hak]⟩
    · have hbeq : (a == p.1) = false := by simp [hak]
      have ht : a ∈ t.map Prod.fst := by
        simp only [List.map_cons, List.mem_cons] at h
        exact h.resolve_left hak
      rcases ih ht with ⟨b, hb⟩
      exact ⟨b, by simp [List.lookup, hbeq, hb]⟩

/-- A successfully built sync task carries the element it was built for. -/
theorem get_one_sync_task_element {expand : String → String} {cmd : String}
    {config : Config} {this_host element : String} {direction : Direction}
    {target_host : String} {t : SyncTask}
    (h : _get_one_sync_task expand cmd config this_host element direction
        target_host = some t) :
    t.element = element := by
  cases h1 : config.lookup target_host with
  | none => simp [_get_one_sync_task, h1] at h
  | some et =>
    cases h2 : config.lookup this_host with
    | none => simp [_get_one_sync_task, h1, h2] at h
    | some eth =>
      cases h3 : eth.lookup element with
      | none => simp [_get_one_sync_task, h1, h2, h3] at h
      | some p1 =>
        cases h4 : et.lookup element with
        | none => simp [_get_one_sync_task, h1, h2, h3, h4] at h
        | some p2 =>
          cases direction <;>
            simp [_get_one_sync_task, h1, h2, h3, h4] at h <;>
            simp [← h]

/-- Inversion of a successful `_get_hosts` run: the computed `this_host` and
`target_hosts`, and the two validation checks that were passed. -/
theorem get_hosts_ok_elim {config : Config} {fullname : String}
    {targets : List String} {this_host : String} {target_hosts : List String}
    (h : _get_hosts config fullname targets = .ok (this_host, target_hosts)) :
    thisHostOf config fullname = some this_host
    ∧ target_hosts = targetHostsOf config fullname targets
    ∧ (targetHostsOf config fullname targets).isEmpty = false
    ∧ (targetHostsOf config fullname targets).contains this_host = false := by
  unfold _get_hosts at h
  cases hth : thisHostOf config fullname with
  | none => rw [hth] at h; exact absurd h (by simp)
  | some th =>
    rw [hth] at h
    simp only at h
    by_cases he : (targetHostsOf config fullname targets).isEmpty
    · rw [if_pos he] at h; exact absurd h (by simp)
    · rw [if_neg he] at h
      by_cases hc : (targetHostsOf config fullname targets).contains th
      · rw [if_pos hc] at h; exact absurd h (by simp)
      · rw [if_neg hc] at h
        have hok : th = this_host ∧ targetHostsOf config fullname targets
            = target_hosts := by
          simpa using h
        obtain ⟨h1, h2⟩ := hok
        subst h1
        exact ⟨rfl, h2.symm, by simpa using he, by simpa using hc⟩

/-! ## Claim theorems -/

/-- C3 counterexample: with hosts `h1`, `h2`, `x` and local network name
`h1h2.local`, both `h1` and `h2` are substrings of the local name; the claim
says the first one (`h1`) is selected, but `_get_hosts` selects `h2`. -/
theorem C3_counterexample :
    _get_hosts [("h1", [("f", "p")]), ("h2", [("f", "q")]), ("x", [("f", "r")])]
        "h1h2.local" ["x"] = .ok ("h2", ["x"])
    ∧ (allHostsOf
        [("h1", [("f", "p")]), ("h2", [("f", "q")]), ("x", [("f", "r")])]).find?
          (fun h => strIn h "h1h2.local") = some "h1"
    ∧ ("h2" : String) ≠ "h1" :=
  ⟨rfl, rfl, by decide⟩

/-- C3 (amended): `_get_hosts` selects as `this_host` the LAST configured
host, in the Config's host iteration order, whose name is a substring of the
local network name (the loop overwrites earlier matches). -/
theorem C3_this_host_last_match (config : Config) (fullname : String)
    (targets : List String) (this_host : String) (target_hosts : List String)
    (h : _get_hosts config fullname targets = .ok (this_host, target_hosts)) :
    lastMatch (fun host => strIn host fullname) (allHostsOf config)
      = some this_host := by
  rw [← thisHostOf_eq_lastMatch]
  exact (get_hosts_ok_elim h).1

/-- Witness for C3: on the counterexample configuration the selected host is
the last match `h2`. -/
theorem C3_witness :
    lastMatch (fun host => strIn host "h1h2.local")
      (allHostsOf
        [("h1", [("f", "p")]), ("h2", [("f", "q")]), ("x", [("f", "r")])])
      = some "h2" :=
  C3_this_host_last_match
    [("h1", [("f", "p")]), ("h2", [("f", "q")]), ("x", [("f", "r")])]
    "h1h2.local" ["x"] "h2" ["x"] rfl

/-- C4 counterexample: the tokens `h2` and `my-h2` both resolve to the
configured host `h2`; the claim says the resolved list is deduplicated, but
`_get_hosts` returns `h2` twice. -/
theorem C4_counterexample :
    _get_hosts [("h1", [("f", "p")]), ("h2", [("f", "q")])] "h1.local"
        ["h2", "my-h2"] = .ok ("h1", ["h2", "h2"])
    ∧ ¬ (["h2", "h2"] : List String).Nodup :=
  ⟨rfl, by decide⟩

/-- C4 (amended): without the sentinel `all`, each requested token resolves
to the first configured host that is a substring of the token, unmatched
tokens are dropped with a non-fatal warning, and the resolved list keeps the
token order WITHOUT deduplication (a host may appear once per token that
resolves to it). -/
theorem C4_target_resolution (config : Config) (fullname : String)
    (targets : List String) (this_host : String) (target_hosts : List String)
    (hall : targets.contains "all" = false)
    (h : _get_hosts config fullname targets = .ok (this_host, target_hosts)) :
    target_hosts = targets.filterMap
      (fun tok => (allHostsOf config).find? (fun host => strIn host tok)) := by
  have h2 := (get_hosts_ok_elim h).2.1
  rw [h2]
  have hnall : "all" ∉ targets := by simpa using hall
  simp [targetHostsOf, hnall, resolveTargets_eq_filterMap]

/-- Witness for C4: the duplicate-token run resolves to `[h2, h2]`. -/
theorem C4_witness :
    (["h2", "my-h2"] : List String).filterMap
      (fun tok =>
        (allHostsOf [("h1", [("f", "p")]), ("h2", [("f", "q")])]).find?
          (fun host => strIn host tok)) = ["h2", "h2"] :=
  (C4_target_resolution [("h1", [("f", "p")]), ("h2", [("f", "q")])]
    "h1.local" ["h2", "my-h2"] "h1" ["h2", "h2"] rfl rfl).symm

/-- C5: a successful host resolution never contains `this_host` among the
targets and never has an empty target list; each of the three violations
terminates the run with its own distinct fatal error. -/
theorem C5_host_validation (config : Config) (fullname : String)
    (targets : List String) :
    (∀ this_host target_hosts,
       _get_hosts config fullname targets = .ok (this_host, target_hosts) →
       this_host ∉ target_hosts ∧ target_hosts ≠ [])
    ∧ (thisHostOf config fullname = none →
       _get_hosts config fullname targets = .error .noLocalHostMatch)
    ∧ (∀ th, thisHostOf config fullname = some th →
       targetHostsOf config fullname targets = [] →
       _get_hosts config fullname targets = .error .noTargetHostMatch)
    ∧ (∀ th, thisHostOf config fullname = some th →
       targetHostsOf config fullname targets ≠ [] →
       th ∈ targetHostsOf config fullname targets →
       _get_hosts config fullname targets = .error .selfSync)
    ∧ (HostError.noLocalHostMatch ≠ HostError.noTargetHostMatch
       ∧ HostError.noLocalHostMatch ≠ HostError.selfSync
       ∧ HostError.noTargetHostMatch ≠ HostError.selfSync) := by
  refine ⟨?_, ?_, ?_, ?_, by decide, by decide, by decide⟩
  · intro this_host target_hosts h
    obtain ⟨-, h2, h3, h4⟩ := get_hosts_ok_elim h
    subst h2
    constructor
    · intro hmem
      have h4' : this_host ∉ targetHostsOf config fullname targets := by
        simpa using h4
      exact h4' hmem
    · intro hnil
      rw [hnil] at h3
      simp at h3
  · intro hth
    unfold _get_hosts
    rw [hth]
  · intro th hth hempty
    unfold _get_hosts
    rw [hth]
    simp [hempty]
  · intro th hth hne hmem
    unfold _get_hosts
    rw [hth]
    simp only
    rw [if_neg (by simp [List.isEmpty_iff, hne]),
      if_pos (by simpa using hmem)]

/-- Witness for C5: a valid resolution, evaluated, satisfies the invariant. -/
theorem C5_witness :
    ("h1" : String) ∉ (["h2"] : List String) ∧ (["h2"] : List String) ≠ [] :=
  (C5_host_validation [("h1", [("f", "p")]), ("h2", [("f", "q")])]
    "h1.local" ["h2"]).1 "h1" ["h2"] rfl

/-- C1: the result loop of `_process_host` returns `False` immediately at the
first result whose stderr contains a connection marker (its value does not
depend on the later results); with no connection marker but some non-empty
stderr it processes everything and returns `False`; and it returns `True`
exactly when every result's stderr is empty. -/
theorem C1_process_results_verdict :
    (∀ (pre : List TransferResult) (r : TransferResult)
       (post : List TransferResult) (b : Bool),
       (∀ x ∈ pre, connection_error x.stderr = false) →
       connection_error r.stderr = true →
       processResults (pre ++ r :: post) b = false ∧
       processResults (pre ++ r :: post) b = processResults (pre ++ [r]) b)
    ∧ (∀ results : List TransferResult,
       (∀ x ∈ results, connection_error x.stderr = false) →
       (∃ x ∈ results, x.stderr ≠ "") →
       processResults results true = false)
    ∧ (∀ results : List TransferResult,
       processResults results true = true ↔ ∀ x ∈ results, x.stderr = "") := by
  refine ⟨?_, ?_, ?_⟩
  · intro pre r post b hpre hconn
    induction pre generalizing b with
    | nil => simp [processResults, hconn]
    | cons p pre ih =>
      have hp : connection_error p.stderr = false := hpre p (by simp)
      have hpre' : ∀ x ∈ pre, connection_error x.stderr = false :=
        fun x hx => hpre x (by simp [hx])
      by_cases hps : p.stderr = ""
      · simpa [processResults, hp, hps, connection_error_empty] using
          ih b hpre'
      · simpa [processResults, hp, hps] using ih false hpre'
  · intro results hconn hex
    induction results with
    | nil => simp at hex
    | cons r rs ih =>
      have hr : connection_error r.stderr = false := hconn r (by simp)
      have hconn' : ∀ x ∈ rs, connection_error x.stderr = false :=
        fun x hx => hconn x (by simp [hx])
      by_cases hrs : r.stderr = ""
      · have hex' : ∃ x ∈ rs, x.stderr ≠ "" := by
          rcases hex with ⟨x, hx, hxs⟩
          rcases List.mem_cons.mp hx with h | h
          · exact absurd (h ▸ hxs) (by simp [hrs])
          · exact ⟨x, h, hxs⟩
        simpa [processResults, hrs, connection_error_empty] using
          ih hconn' hex'
      · simp [processResults, hr, hrs, processResults_false]
  · intro results
    induction results with
    | nil => simp [processResults]
    | cons r rs ih =>
      by_cases hc : connection_error r.stderr
      · simp only [processResults, hc, if_pos, Bool.false_eq_true, false_iff]
        intro hall
        have hr := hall r (by simp)
        rw [hr] at hc
        exact absurd hc (by decide)
      · by_cases hs : r.stderr = ""
        · simpa [processResults, hs, connection_error_empty] using ih
        · simp [processResults, hc, hs, processResults_false]

/-- Witness for C1: a leading connection-refused result decides the call. -/
theorem C1_witness :
    processResults
      [⟨"s", "d", "", "ssh: connect: Connection refused"⟩,
       ⟨"s", "d", "", ""⟩] true = false := by
  have h :=
    (C1_process_results_verdict.1 []
      ⟨"s", "d", "", "ssh: connect: Connection refused"⟩
      [⟨"s", "d", "", ""⟩] true (by simp) (by decide)).1
  exact h

/-- C2: for a shared element, the `up` task has source `expand("~/<this
host's relative path>")` and destination `<target base path> ++ <target's
relative path>` (the base path being the expanded `_PATH` override when
present, else `<target_host>:./`), the `down` task swaps them, the command is
the sync command followed by source then destination, and the sync command
carries the ` -n` dry-run flag exactly when `dry_run` is set; the spec's
scenario evaluates as claimed. -/
theorem C2_sync_task_construction :
    (∀ (expand : String → String) (cmd : String) (config : Config)
       (this_host target_host element : String)
       (elems_target elems_this : List (String × String)) (p₁ p₂ : String),
       config.lookup target_host = some elems_target →
       config.lookup this_host = some elems_this →
       elems_this.lookup element = some p₁ →
       elems_target.lookup element = some p₂ →
       _get_one_sync_task expand cmd config this_host element .up target_host
         = some ⟨element, expand ("~/" ++ p₁),
             targetBasePath expand target_host elems_target ++ p₂,
             cmd ++ " " ++ expand ("~/" ++ p₁) ++ " "
               ++ (targetBasePath expand target_host elems_target ++ p₂)⟩
       ∧ _get_one_sync_task expand cmd config this_host element .down
           target_host
         = some ⟨element, targetBasePath expand target_host elems_target ++ p₂,
             expand ("~/" ++ p₁),
             cmd ++ " " ++ (targetBasePath expand target_host elems_target ++ p₂)
               ++ " " ++ expand ("~/" ++ p₁)⟩)
    ∧ (∀ (elems_target : List (String × String)) (expand : String → String)
         (target_host p : String),
         (elems_target.lookup _PATH = some p →
           targetBasePath expand target_host elems_target = expand p)
         ∧ (elems_target.lookup _PATH = none →
           targetBasePath expand target_host elems_target
             = target_host ++ ":./"))
    ∧ (∀ (exclude : Option (List String)),
        _get_sync_command exclude true false
          = _get_sync_command exclude false false ++ " -n"
        ∧ _get_sync_command exclude true true
          = (_get_sync_command exclude false false ++ " -n") ++ " --delete"
        ∧ _get_sync_command exclude false true
          = _get_sync_command exclude false false ++ " --delete"
        ∧ strIn " -n" (_get_sync_command none false false) = false
        ∧ strIn " -n" (_get_sync_command none true false) = true
        ∧ strIn " -n" (_get_sync_command none false true) = false
        ∧ strIn " -n" (_get_sync_command none true true) = true)
    ∧ (_get_hosts [("host1", [("f1", "a/f1")]), ("host2", [("f1", "b/f1")])]
         "mylaptop-host1" ["host2"] = .ok ("host1", ["host2"])
       ∧ _get_one_sync_task id (_get_sync_command none true false)
           [("host1", [("f1", "a/f1")]), ("host2", [("f1", "b/f1")])]
           "host1" "f1" .up "host2"
         = some ⟨"f1", "~/a/f1", "host2:./b/f1",
             "rsync -auP --exclude=\"*.swp\" -n ~/a/f1 host2:./b/f1"⟩
       ∧ strIn " -n"
           "rsync -auP --exclude=\"*.swp\" -n ~/a/f1 host2:./b/f1" = true) := by
  refine ⟨?_, ?_, ?_, rfl, rfl, by decide⟩
  · intro expand cmd config this_host target_host element elems_target
      elems_this p₁ p₂ h1 h2 h3 h4
    constructor <;> simp [_get_one_sync_task, h1, h2, h3, h4]
  · intro elems_target expand target_host p
    constructor
    · intro h; simp [targetBasePath, h]
    · intro h; simp [targetBasePath, h]
  · intro exclude
    exact ⟨rfl, rfl, rfl, by decide, by decide, by decide, by decide⟩

/-- Witness for C2: the scenario configuration of the spec, evaluated. -/
theorem C2_witness :
    _get_one_sync_task id "rsync -auP --exclude=\"*.swp\" -n"
      [("host1", [("f1", "a/f1")]), ("host2", [("f1", "b/f1")])]
      "host1" "f1" .up "host2"
      = some ⟨"f1", "~/a/f1", "host2:./b/f1",
          "rsync -auP --exclude=\"*.swp\" -n ~/a/f1 host2:./b/f1"⟩ := by
  have h :=
    (C2_sync_task_construction.1 id "rsync -auP --exclude=\"*.swp\" -n"
      [("host1", [("f1", "a/f1")]), ("host2", [("f1", "b/f1")])]
      "host1" "host2" "f1" [("f1", "b/f1")] [("f1", "a/f1")] "a/f1" "b/f1"
      rfl rfl rfl rfl).1
  exact h

/-- C6: `_get_log_info` drops the first line and every subsequent irrelevant
line (empty, bare `./`, `sent `/`total size is` summary, or carriage-return
progress noise), every retained line yields exactly one event, and the result
has set semantics: no duplicates, membership determined by the raw lines, and
an identical duplicated raw line yields exactly one event. -/
theorem C6_log_classification (dry_run : Bool) (src dest stdout : String) :
    (∀ line, classifyLine dry_run src dest line = none
      ↔ not_relevant line = true)
    ∧ (_get_log_info dry_run stdout src dest).Nodup
    ∧ (∀ e, e ∈ _get_log_info dry_run stdout src dest ↔
        ∃ line ∈ (strSplitLines stdout).drop 1,
          classifyLine dry_run src dest line = some e)
    ∧ (∀ (l₁ l₂ : String) (rest : List String),
        logInfoOfLines dry_run src dest (l₁ :: rest)
          = logInfoOfLines dry_run src dest (l₂ :: rest))
    ∧ (∀ (e x : String) (pre post : List String),
        e ∈ ((pre ++ x :: x :: post).filterMap
            (classifyLine dry_run src dest)).dedup
          ↔ e ∈ ((pre ++ x :: post).filterMap
            (classifyLine dry_run src dest)).dedup) := by
  refine ⟨?_, ?_, ?_, ?_, ?_⟩
  · intro line
    by_cases h : not_relevant line
    · simp [classifyLine, h]
    · simp only [classifyLine, h, Bool.false_eq_true, if_false, false_iff]
      split
      · simp
      · split <;> simp
  · exact List.nodup_dedup _
  · intro e
    simp [_get_log_info, logInfoOfLines, List.mem_dedup, List.mem_filterMap]
  · intro l₁ l₂ rest
    rfl
  · intro e x pre post
    simp only [List.mem_dedup, List.mem_filterMap, List.mem_append,
      List.mem_cons]
    constructor
    · rintro ⟨a, ha, hfa⟩
      exact ⟨a, by tauto, hfa⟩
    · rintro ⟨a, ha, hfa⟩
      exact ⟨a, by tauto, hfa⟩

/-- Witness for C6: duplicated `created directory` lines from two concurrent
tasks produce a duplicate-free event list. -/
theorem C6_witness :
    (_get_log_info false "hdr\ncreated directory .config/\ncreated directory .config/"
      "/s/" "/d/").Nodup :=
  (C6_log_classification false "/s/" "/d/"
    "hdr\ncreated directory .config/\ncreated directory .config/").2.1

/-- C7 counterexample: the element `_FOO` starts with the reserved prefix
`_` but is not the key `_PATH`; when shared it DOES get a sync task, so the
claim that every `_`-prefixed element is excluded is false. -/
theorem C7_counterexample :
    processHostTasks id "CMD"
        [("h1", [("_FOO", "a")]), ("h2", [("_FOO", "b")])] "h1" "h2" .up
      = some [⟨"_FOO", "~/a", "h2:./b", "CMD ~/a h2:./b"⟩]
    ∧ strStartsWith "_FOO" "_" = true
    ∧ ("_FOO" : String) ≠ _PATH :=
  ⟨rfl, rfl, by decide⟩

/-- C7 (amended): `_process_host` excludes exactly the reserved key `_PATH`
from task iteration: no task is built for `_PATH`, and every other shared
element — including names that merely start with `_` — gets a task. -/
theorem C7_only_path_key_excluded (expand : String → String) (cmd : String)
    (config : Config) (this_host target_host : String) (direction : Direction)
    (tasks : List SyncTask)
    (h : processHostTasks expand cmd config this_host target_host direction
      = some tasks) :
    (∀ t ∈ tasks, t.element ≠ _PATH)
    ∧ (∀ element ∈ (lookupHost config this_host).map Prod.fst,
       element ≠ _PATH →
       element ∈ (lookupHost config target_host).map Prod.fst →
       ∃ t ∈ tasks, t.element = element) := by
  unfold processHostTasks at h
  by_cases hd : ((lookupHost config this_host).map Prod.fst).all
      (fun e => !((lookupHost config target_host).map Prod.fst).contains e)
  · rw [if_pos hd] at h
    exact absurd h (by simp)
  · rw [if_neg hd] at h
    have htasks : ((lookupHost config this_host).map Prod.fst).filterMap
        (fun element =>
          if element == _PATH then none
          else if ((lookupHost config target_host).map Prod.fst).contains
              element then
            _get_one_sync_task expand cmd config this_host element direction
              target_host
          else none) = tasks := by
      simpa using h
    constructor
    · intro t ht
      rw [← htasks] at ht
      obtain ⟨e, he, hfe⟩ := List.mem_filterMap.mp ht
      by_cases hep : e = _PATH
      · rw [if_pos (by simp [hep])] at hfe
        exact absurd hfe (by simp)
      · rw [if_neg (by simp [hep])] at hfe
        by_cases hc : ((lookupHost config target_host).map Prod.fst).contains e
        · rw [if_pos hc] at hfe
          rw [get_one_sync_task_element hfe]
          exact hep
        · rw [if_neg hc] at hfe
          exact absurd hfe (by simp)
    · intro e hmem_this hne hmem_target
      have hbeq : (e == _PATH) = false := by simp [hne]
      have hcont : ((lookupHost config target_host).map Prod.fst).contains e
          = true := by simpa using hmem_target
      obtain ⟨et, hct⟩ : ∃ et, config.lookup target_host = some et := by
        cases hc : config.lookup target_host with
        | none =>
          rw [lookupHost, hc] at hmem_target
          simp at hmem_target
        | some et => exact ⟨et, rfl⟩
      obtain ⟨eth, hcth⟩ : ∃ eth, config.lookup this_host = some eth := by
        cases hc : config.lookup this_host with
        | none =>
          rw [lookupHost, hc] at hmem_this
          simp at hmem_this
        | some eth => exact ⟨eth, rfl⟩
      have hmem_this' : e ∈ eth.map Prod.fst := by
        rwa [lookupHost, hcth] at hmem_this
      have hmem_target' : e ∈ et.map Prod.fst := by
        rwa [lookupHost, hct] at hmem_target
      obtain ⟨p₁, hp₁⟩ := lookup_of_mem_keys hmem_this'
      obtain ⟨p₂, hp₂⟩ := lookup_of_mem_keys hmem_target'
      obtain ⟨t, ht⟩ : ∃ t, _get_one_sync_task expand cmd config this_host e
          direction target_host = some t := by
        cases direction <;>
          simp [_get_one_sync_task, hct, hcth, hp₁, hp₂]
      refine ⟨t, ?_, get_one_sync_task_element ht⟩
      rw [← htasks]
      refine List.mem_filterMap.mpr ⟨e, hmem_this, ?_⟩
      rw [if_neg (by simp [hne]), if_pos hcont]
      exact ht

/-- Witness for C7: on the `_FOO` configuration the shared `_`-prefixed
element yields a task. -/
theorem C7_witness :
    ∃ t ∈ [(⟨"_FOO", "~/a", "h2:./b", "CMD ~/a h2:./b"⟩ : SyncTask)],
      t.element = "_FOO" :=
  (C7_only_path_key_excluded id "CMD"
    [("h1", [("_FOO", "a")]), ("h2", [("_FOO", "b")])] "h1" "h2" .up
    [⟨"_FOO", "~/a", "h2:./b", "CMD ~/a h2:./b"⟩] rfl).2 "_FOO"
    (by decide) (by decide) (by decide)

/-- C10: when the only shared element name is the reserved key `_PATH`, the
disjointness test sees a shared element, so the informational
"no shared elements" branch is skipped; yet the task list is empty, zero
subprocesses are launched, and `_process_host` returns `True`. -/
theorem C10_path_only_overlap (expand : String → String) (cmd : String)
    (config : Config) (this_host target_host : String) (direction : Direction)
    (h1 : _PATH ∈ (lookupHost config this_host).map Prod.fst)
    (h2 : _PATH ∈ (lookupHost config target_host).map Prod.fst)
    (h3 : ∀ e ∈ (lookupHost config this_host).map Prod.fst,
       e ∈ (lookupHost config target_host).map Prod.fst → e = _PATH) :
    processHostTasks expand cmd config this_host target_host direction
      = some []
    ∧ _process_host expand cmd config this_host target_host direction []
      = true := by
  have hnd : (((lookupHost config this_host).map Prod.fst).all
      (fun e => !((lookupHost config target_host).map Prod.fst).contains e))
      = false := by
    rw [List.all_eq_false]
    exact ⟨_PATH, h1, by simpa using h2⟩
  have hpt : processHostTasks expand cmd config this_host target_host
      direction = some [] := by
    unfold processHostTasks
    rw [if_neg (by rw [hnd]; simp)]
    congr 1
    rw [List.filterMap_eq_nil_iff]
    intro e he
    by_cases hep : e = _PATH
    · rw [if_pos (by simp [hep])]
    · have hnm : e ∉ (lookupHost config target_host).map Prod.fst :=
        fun hmem => hep (h3 e he hmem)
      rw [if_neg (by simp [hep]), if_neg (by simpa using hnm)]
  exact ⟨hpt, by simp [_process_host, hpt, processResults]⟩

/-- Witness for C10: two hosts sharing only `_PATH`, evaluated. -/
theorem C10_witness :
    processHostTasks id "CMD"
      [("h1", [("_PATH", "/p/"), ("a", "x")]),
       ("h2", [("_PATH", "/q/"), ("b", "y")])] "h1" "h2" .up = some []
    ∧ _process_host id "CMD"
      [("h1", [("_PATH", "/p/"), ("a", "x")]),
       ("h2", [("_PATH", "/q/"), ("b", "y")])] "h1" "h2" .up [] = true :=
  C10_path_only_overlap id "CMD"
    [("h1", [("_PATH", "/p/"), ("a", "x")]),
     ("h2", [("_PATH", "/q/"), ("b", "y")])] "h1" "h2" .up
    (by decide) (by decide) (by decide)

/-- C8: when the `--up` and `--down` flags agree (both absent or both given)
both phases run; with exactly one flag only that phase runs; the host outcome
is the conjunction of the performed phases, an unperformed phase counting as
success. -/
theorem C8_direction_policy :
    (∀ (u d : Bool), u = d → performFlags u d = (true, true))
    ∧ (∀ (u d : Bool), u ≠ d → performFlags u d = (u, d))
    ∧ (∀ run : Direction → Bool,
        hostOutcome false false run = (run .up && run .down))
    ∧ (∀ run : Direction → Bool,
        hostOutcome true true run = (run .up && run .down))
    ∧ (∀ run : Direction → Bool, hostOutcome true false run = run .up)
    ∧ (∀ run : Direction → Bool, hostOutcome false true run = run .down)
    ∧ (∀ (u d : Bool) (run : Direction → Bool),
        hostOutcome u d run = true ↔
          ((performFlags u d).1 = true → run .up = true)
          ∧ ((performFlags u d).2 = true → run .down = true)) := by
  refine ⟨?_, ?_, ?_, ?_, ?_, ?_, ?_⟩
  · intro u d h; subst h; cases u <;> rfl
  · intro u d h; cases u <;> cases d <;> first | rfl | exact absurd rfl h
  · intro run; rfl
  · intro run; rfl
  · intro run; simp [hostOutcome, performFlags]
  · intro run; simp [hostOutcome, performFlags]
  · intro u d run
    cases u <;> cases d <;>
      cases hu : run .up <;> cases hd : run .down <;>
        simp [hostOutcome, performFlags, hu, hd]

/-- Witness for C8: with only `--up` requested, the outcome is the upload
phase's verdict. -/
theorem C8_witness :
    hostOutcome true false (fun d => match d with | .up => false | .down => true)
      = false := by
  have h := C8_direction_policy.2.2.2.2.1
    (fun d => match d with | .up => false | .down => true)
  simpa using h

end SyncPy
